import Mathlib

/-!
Shallow embedding of the core compiler of `src/src/utils/parser.js` from the
gltfvue repository: a scene-graph-to-Vue-SFC text compiler.  JavaScript numbers
are modelled as exact rationals (the type `Q` below); `Math.round`,
`toFixed`-rounding and the exact
rational value of the IEEE-754 double `Math.PI` are spelled out explicitly.
Stateful code (the in-place `__removed` marking, rotation mutation and
re-parenting of the scene graph) is modelled by explicit state passing over a
node store; recursion over the graph is fuelled.
-/

namespace GltfVue

set_option maxRecDepth 100000

/-- Fuelled Euclidean algorithm; with fuel above the first argument it
computes the greatest common divisor (structural recursion on the fuel keeps
it kernel-computable). -/
def gcdF : Nat → Nat → Nat → Nat
  | 0, _, b => b
  | fuel + 1, a, b => if a = 0 then b else gcdF fuel (b % a) a

def natGcd (a b : Nat) : Nat := gcdF (a + 1) a b

/-- Rational numbers with kernel-computable arithmetic.  (Mathlib's ℚ is
unusable here: the core `Rat` operations are sealed irreducible, so terms
such as `Rat.mul` never reduce under `decide`.)  Values are kept in reduced
form with positive denominator by the smart constructor `Q.mk'`, making
structural equality coincide with rational equality for every value the
embedding builds.  JS numbers are modelled exactly by such rationals; the
floating-point error of the source's doubles is below every tolerance the
compiler tests (all its comparisons round to at most 5 decimals). -/
structure Q where
  num : ℤ
  den : ℕ
deriving DecidableEq, Repr

instance (n : Nat) : OfNat Q n := ⟨⟨n, 1⟩⟩

def Q.ofN (n : Nat) : Q := ⟨n, 1⟩

/-- Reduce the fraction `n / d` (`d ≠ 0` for every value built here). -/
def Q.mk' (n : ℤ) (d : ℕ) : Q :=
  if d = 0 then ⟨0, 1⟩
  else
    let g := natGcd n.natAbs d
    ⟨n / (g : ℤ), d / g⟩

def Q.neg (a : Q) : Q := ⟨-a.num, a.den⟩

instance : Neg Q := ⟨Q.neg⟩

def Q.add (a b : Q) : Q := Q.mk' (a.num * b.den + b.num * a.den) (a.den * b.den)

instance : Add Q := ⟨Q.add⟩

def Q.sub (a b : Q) : Q := a + (-b)

instance : Sub Q := ⟨Q.sub⟩

def Q.mul (a b : Q) : Q := Q.mk' (a.num * b.num) (a.den * b.den)

instance : Mul Q := ⟨Q.mul⟩

def Q.div (a b : Q) : Q :=
  if b.num = 0 then ⟨0, 1⟩
  else Q.mk' (a.num * b.den * (if b.num < 0 then -1 else 1)) (a.den * b.num.natAbs)

instance : Div Q := ⟨Q.div⟩

instance : LE Q := ⟨fun a b => a.num * (b.den : ℤ) ≤ b.num * (a.den : ℤ)⟩

instance : LT Q := ⟨fun a b => a.num * (b.den : ℤ) < b.num * (a.den : ℤ)⟩

instance (a b : Q) : Decidable (a ≤ b) :=
  inferInstanceAs (Decidable (a.num * (b.den : ℤ) ≤ b.num * (a.den : ℤ)))

instance (a b : Q) : Decidable (a < b) :=
  inferInstanceAs (Decidable (a.num * (b.den : ℤ) < b.num * (a.den : ℤ)))

/-- Floor of a rational as an integer (floor division of the numerator by the
positive denominator). -/
def ratFloor (q : Q) : ℤ := Int.fdiv q.num (q.den : ℤ)

/-- JS `Math.round`: round half toward positive infinity. -/
def jsRound (q : Q) : ℤ := ratFloor (q + 1/2)

/-- Absolute value of an integer (JS `Math.abs` on an integral value). -/
def intAbs (n : ℤ) : ℤ := Int.ofNat n.natAbs

/-- The exact rational value of the IEEE-754 double `Math.PI`
(3.141592653589793115997963…). -/
def piQ : Q := ⟨884279719003555, 281474976710656⟩

/-- Decimal rounding to `p` digits.  Models `parseFloat(number.toFixed(p))`
(parser.js line 79), idealised to exact half-up decimal rounding. -/
def roundTo (p : Nat) (q : Q) : Q := Q.mk' (jsRound (q * Q.ofN (10 ^ p))) (10 ^ p)

/-- Configuration record: the `options` object taken by `parse`
(parser.js line 6), with the defaults the source applies at each use site.
`instanceOpt` stands for the source's `options.instance` (a Lean keyword). -/
structure Options where
  fileName : String := "model"
  instanceOpt : Bool := false
  instanceall : Bool := false
  keepgroups : Bool := false
  keepnames : Bool := false
  shadows : Bool := false
  bones : Bool := false
  meta : Bool := false
  debug : Bool := false
  console : Bool := false
  precision : Option Q := none
  headerOpt : Option String := none
  sizeOpt : Option String := none
deriving DecidableEq

/-- `Math.round(options.precision || 2)` (parser.js line 79): an absent or
zero (falsy) precision falls back to 2. -/
def effPrecision (o : Options) : Nat :=
  (jsRound (match o.precision with
    | some q => if q = 0 then 2 else q
    | none => 2)).toNat

/-- `rNbr` (parser.js lines 78-80). -/
def rNbr (o : Options) (q : Q) : Q := roundTo (effPrecision o) q

/-- A JS value that is either a string or a number: `rDeg` returns the
symbolic-π string on a match and the result of `rNbr` (a number) otherwise. -/
inductive StrNum where
  | str (s : String)
  | num (q : Q)
deriving DecidableEq

/-- `rDeg` (parser.js lines 82-93): `abs = Math.abs(Math.round(x * 100000))`
is compared against the similarly rounded `Math.PI / i` for `i = 1..10`, then
`Math.PI * i` for `i = 1..10`; the first match yields the sign-prefixed
symbolic form, otherwise the value falls through to `rNbr`. -/
def rDeg (o : Options) (x : Q) : StrNum :=
  let a : ℤ := intAbs (jsRound (x * 100000))
  match (List.range' 1 10).findSome? (fun (i : Nat) =>
      if a = jsRound (piQ / Q.ofN i * 100000) then
        some (StrNum.str ((if x < 0 then "-" else "") ++ "Math.PI" ++
          (if 1 < i then " / " ++ Nat.repr i else "")))
      else none) with
  | some s => s
  | none =>
    match (List.range' 1 10).findSome? (fun (i : Nat) =>
        if a = jsRound (piQ * Q.ofN i * 100000) then
          some (StrNum.str ((if x < 0 then "-" else "") ++ "Math.PI" ++
            (if 1 < i then " * " ++ Nat.repr i else "")))
        else none) with
    | some s => s
    | none => StrNum.num (rNbr o x)

/-- Smallest `k` (searched with fuel) such that `den` divides `10 ^ k`. -/
def findDecExp (den : Nat) : Nat → Nat → Option Nat
  | 0, _ => none
  | fuel + 1, k => if den ∣ 10 ^ k then some k else findDecExp den fuel (k + 1)
termination_by structural fuel _ => fuel

/-- JS number-to-string conversion for the terminating decimals the compiler
interpolates into templates (every interpolated number has passed through
`rNbr`/`roundTo`, so its denominator divides a power of ten). -/
def numToString (q : Q) : String :=
  let sgn := if q < 0 then "-" else ""
  let n := q.num.natAbs
  match findDecExp q.den 40 0 with
  | none => sgn ++ Nat.repr n ++ "/" ++ Nat.repr q.den
  | some 0 => sgn ++ Nat.repr n
  | some (k + 1) =>
      let e := k + 1
      let m := n * 10 ^ e / q.den
      let whole := m / 10 ^ e
      let frac := m % 10 ^ e
      let fs := Nat.repr frac
      let fs := String.mk (List.replicate (e - fs.length) '0') ++ fs
      sgn ++ Nat.repr whole ++ "." ++ fs

/-- Render a `StrNum` the way a JS template literal would interpolate it. -/
def StrNum.render : StrNum → String
  | .str s => s
  | .num q => numToString q

def isLetterChar (c : Char) : Bool :=
  ('a' ≤ c && c ≤ 'z') || ('A' ≤ c && c ≤ 'Z')

def isDigitChar (c : Char) : Bool := '0' ≤ c && c ≤ '9'

/-- Modelled from the spec: the source imports `isVarName` from
`src/utils/isVarName.js`, which is not under `src/`.  Spec §4.2: true iff the
string is syntactically valid as a bare dot-access identifier; modelled as a
JS identifier (nonempty, first char a letter, `_` or `$`, rest letters,
digits, `_` or `$`). -/
def isVarName (s : String) : Bool :=
  match s.toList with
  | [] => false
  | c :: cs =>
      (isLetterChar c || c = '_' || c = '$') &&
        cs.all (fun d => isLetterChar d || isDigitChar d || d = '_' || d = '$')

/-- Character-list based lowercase (core's `String.toLower` is byte-based and
does not kernel-reduce). -/
def strToLower (s : String) : String := String.mk (s.toList.map Char.toLower)

/-- Character-list based `String.startsWith`. -/
def strStartsWith (s pre : String) : Bool :=
  pre.toList.isPrefixOf s.toList

/-- Character-list based `String.endsWith`. -/
def strEndsWith (s suf : String) : Bool :=
  suf.toList.reverse.isPrefixOf s.toList.reverse

/-- `sanitizeName` (parser.js lines 74-76). -/
def sanitizeName (name : String) : String :=
  if isVarName name then "." ++ name else "[\x27" ++ name ++ "\x27]"

/-- `name.replace(/[^a-zA-Z]/g, '')` (parser.js line 50). -/
def stripNonLetters (s : String) : String := String.mk (s.toList.filter isLetterChar)

/-- `name.charAt(0).toUpperCase() + name.slice(1)` (parser.js line 51). -/
def upperFirst (s : String) : String :=
  match s.toList with
  | [] => ""
  | c :: cs => String.mk (c.toUpper :: cs)

/-- `obj.type.charAt(0).toLowerCase() + obj.type.slice(1)` (parser.js line 128). -/
def lowerFirst (s : String) : String :=
  match s.toList with
  | [] => ""
  | c :: cs => String.mk (c.toLower :: cs)


/-! ### Data model: scene nodes, the node store, and the GLTF wrapper -/

structure Vec3 where
  x : Q
  y : Q
  z : Q
deriving DecidableEq, Repr

def Vec3.zero : Vec3 := ⟨0, 0, 0⟩

def Vec3.one : Vec3 := ⟨1, 1, 1⟩

structure Quat where
  qx : Q
  qy : Q
  qz : Q
  qw : Q
deriving DecidableEq, Repr

structure Geometry where
  uuid : String
deriving DecidableEq

/-- Material reference.  `matId` models JS object identity: `printTypes`
deduplicates materials by reference through a `Set` (parser.js line 98). -/
structure Material where
  matId : Nat := 0
  name : String := ""
  type : String := "MeshStandardMaterial"
deriving DecidableEq

/-- A scene-graph node (THREE `Object3D` and subclasses), restricted to the
fields `parser.js` reads or writes.  `color` holds the result of
`getHexString()`; `userDataJson` holds `JSON.stringify(obj.userData)` for a
non-empty `userData` map; `target`/`parent`/`children` are node ids into the
store.  Absent (undefined) JS properties are `none`/`false`/`0`. -/
structure Node where
  type : String := "Object3D"
  name : String := ""
  position : Vec3 := Vec3.zero
  rotation : Vec3 := Vec3.zero
  quaternion : Quat := ⟨0, 0, 0, 1⟩
  scale : Vec3 := Vec3.one
  geometry : Option Geometry := none
  material : Option Material := none
  isMesh : Bool := false
  isBone : Bool := false
  isInstancedMesh : Bool := false
  morphTargetDictionary : Bool := false
  morphTargetInfluences : Bool := false
  skeleton : Bool := false
  instanceMatrix : Bool := false
  instanceColor : Bool := false
  visible : Bool := true
  castShadow : Bool := false
  receiveShadow : Bool := false
  color : Option String := none
  intensity : Option Q := none
  angle : Option Q := none
  penumbra : Option Q := none
  decay : Option Q := none
  distance : Option Q := none
  up : Option Vec3 := none
  zoom : Q := 1
  far : Q := 2000
  near : Q := 1/10
  fov : Q := 50
  count : Q := 0
  userDataJson : Option String := none
  target : Option Nat := none
  children : List Nat := []
  parent : Option Nat := none
  removed : Bool := false
deriving DecidableEq

instance : Inhabited Node := ⟨{}⟩

/-- The mutable object graph: nodes addressed by id (JS object identity). -/
structure Store where
  nodes : List Node
deriving DecidableEq

def Store.get (s : Store) (i : Nat) : Node := s.nodes.getD i default

def Store.set (s : Store) (i : Nat) (n : Node) : Store := ⟨s.nodes.set i n⟩

def Store.modify (s : Store) (i : Nat) (f : Node → Node) : Store :=
  s.set i (f (s.get i))

/-- THREE `Object3D.remove(child)`: splice the child out of the children
array and null its parent pointer (only when it actually is a child). -/
def Store.removeChild (s : Store) (pid cid : Nat) : Store :=
  if cid ∈ (s.get pid).children then
    let s1 := s.modify pid (fun p => { p with children := p.children.erase cid })
    s1.modify cid (fun c => { c with parent := none })
  else s

/-- THREE `Object3D.add(child)`: detach from any current parent, set the
parent pointer, append to the children array (no-op on self-addition). -/
def Store.addChild (s : Store) (pid cid : Nat) : Store :=
  if cid = pid then s
  else
    let s1 := match (s.get cid).parent with
      | some old => s.removeChild old cid
      | none => s
    let s2 := s1.modify cid (fun c => { c with parent := some pid })
    s2.modify pid (fun p => { p with children := p.children ++ [cid] })

/-- THREE `Object3D.traverse` (parser.js lines 18, 33, 45, 324): the callback
sees the node itself first, then each child subtree in order; fuelled. -/
def traverseIds (s : Store) : Nat → Nat → List Nat
  | 0, _ => []
  | fuel + 1, i => i :: (s.get i).children.flatMap (fun c => traverseIds s fuel c)

/-! ### The side-channel JSON description (`gltf.parser.json`) -/

structure JAsset where
  extras : Option (List (String × String)) := none
deriving DecidableEq

/-- A material entry of the source JSON: `unlit` models the presence of
`extensions.KHR_materials_unlit`, `emissiveTexture` its `index`,
`baseColorTexture` the presence of `pbrMetallicRoughness.baseColorTexture`. -/
structure JMaterial where
  name : String := ""
  unlit : Bool := false
  emissiveTexture : Option Nat := none
  baseColorTexture : Bool := false
deriving DecidableEq

structure JTexture where
  source : Option Nat := none
deriving DecidableEq

structure JImage where
  uri : Option String := none
deriving DecidableEq

structure GltfJson where
  extensionsUsed : Option (List String) := none
  materials : Option (List JMaterial) := none
  textures : Option (List JTexture) := none
  images : Option (List JImage) := none
  asset : Option JAsset := none
deriving DecidableEq

/-- The loaded-GLTF structure handed to `parse`: a scene root in the store,
the animation clip names, and the parser JSON side channel. -/
structure Gltf where
  store : Store
  scene : Nat := 0
  animations : List String := []
  json : GltfJson := {}
deriving DecidableEq

/-! ### Duplicate tables (GraphIndexer) -/

/-- One entry of `duplicates.geometries` (parser.js lines 52-56). -/
structure DupRec where
  count : Nat
  name : String
  node : String
deriving DecidableEq

/-- `duplicates.geometries`: a string-keyed JS object, modelled as an
insertion-ordered association list. -/
abbrev GeoTable := List (String × DupRec)

/-- First duplicate-scan traversal (parser.js lines 33-43): meshes counted per
material name. -/
def buildMaterials (ns : List Node) : List (String × Nat) :=
  ns.foldl (fun tbl n =>
    if n.isMesh then
      match n.material with
      | some m =>
          match tbl.lookup m.name with
          | some c => tbl.map (fun e => if e.1 = m.name then (e.1, c + 1) else e)
          | none => tbl ++ [(m.name, 1)]
      | none => tbl
    else tbl) []

/-- The duplicate signature `child.geometry.uuid + child.material?.name ?? ''`
(parser.js line 48).  By JS precedence this parses as
`(uuid + material?.name) ?? ''`: the `+` coerces an undefined
`material?.name` to the text "undefined", and the `?? ''` fallback is dead
because a string is never nullish. -/
def geometryKey (g : Geometry) (mat : Option Material) : String :=
  g.uuid ++ (match mat with
    | some m => m.name
    | none => "undefined")

/-- The candidate `index > 0 ? attempt + index : attempt` (parser.js line 28). -/
def attemptName (attempt : String) (index : Nat) : String :=
  if 0 < index then attempt ++ Nat.repr index else attempt

/-- `uniqueName` (parser.js lines 27-31): try suffixes until the candidate is
not among the names already assigned in the current table.  Fuelled; the JS
recursion terminates because decimal suffixes never repeat while the table is
finite (`uniqueNameGo_fresh` below makes this precise). -/
def uniqueNameGo (names : List String) (attempt : String) : Nat → Nat → String
  | 0, index => attemptName attempt index
  | fuel + 1, index =>
      let cand := attemptName attempt index
      if cand ∈ names then uniqueNameGo names attempt fuel (index + 1) else cand
termination_by structural fuel _ => fuel

def tableNames (t : GeoTable) : List String := t.map (fun e => e.2.name)

def uniqueName (t : GeoTable) (attempt : String) : String :=
  uniqueNameGo (tableNames t) attempt (t.length + 1) 0

/-- `(child.name || 'Part')` stripped to letters and capitalised
(parser.js lines 50-51). -/
def baseNameOf (n : Node) : String :=
  upperFirst (stripNonLetters (if n.name = "" then "Part" else n.name))

/-- One step of the second duplicate-scan traversal (parser.js lines 46-61):
for a mesh with geometry, the first occurrence of its key allocates a
`DupRec` with a collision-resolved name, later occurrences increment the
count in place. -/
def geoStep (tbl : GeoTable) (n : Node) : GeoTable :=
  if n.isMesh then
    match n.geometry with
    | some g =>
        let key := geometryKey g n.material
        match tbl.lookup key with
        | some _ =>
            tbl.map (fun e =>
              if e.1 = key then (e.1, { e.2 with count := e.2.count + 1 }) else e)
        | none =>
            tbl ++ [(key,
              { count := 1, name := uniqueName tbl (baseNameOf n),
                node := "nodes" ++ sanitizeName n.name })]
    | none => tbl
  else tbl

/-- Second duplicate-scan traversal (parser.js lines 45-62), over the
pre-order node list. -/
def buildGeometries (ns : List Node) : GeoTable := ns.foldl geoStep []

/-- Pruning of single-occurrence records (parser.js lines 64-70): under any
mode but `instanceall`, records with `count === 1` are deleted. -/
def pruneSingletons (instanceall : Bool) (t : GeoTable) : GeoTable :=
  if instanceall then t else t.filter (fun e => e.2.count ≠ 1)

/-- Read-only context threaded through the printing recursion: the options,
the (pruned) geometry duplicate table, and whether the model has animations. -/
structure Env where
  opts : Options
  geoTbl : GeoTable
  hasAnims : Bool
deriving DecidableEq

/-- `getType` (parser.js lines 127-134). -/
def getType (n : Node) : String :=
  let t := lowerFirst n.type
  let t := if t = "object3D" then "group" else t
  let t := if t = "perspectiveCamera" then "TresPerspectiveCamera" else t
  if t = "orthographicCamera" then "TresOrthographicCamera" else t

/-- `getTresType` (parser.js lines 136-139). -/
def getTresType (t : String) : String := "Tres" ++ upperFirst t

/-- The `instanced` component of `getInfo` (parser.js lines 222-227); note the
lookup key here is the plain `obj.geometry.uuid + obj.material.name`,
guarded by the truthiness of both `obj.geometry` and `obj.material`. -/
def isInstanced (e : Env) (n : Node) : Bool :=
  (e.opts.instanceOpt || e.opts.instanceall) &&
    (match n.geometry, n.material with
     | some g, some m =>
        match e.geoTbl.lookup (g.uuid ++ m.name) with
        | some r => decide (r.count > (if e.opts.instanceall then 0 else 1))
        | none => false
     | _, _ => false)

/-- `equalOrNegated` (parser.js lines 232-234). -/
def equalOrNegated (a b : Vec3) : Bool :=
  (a.x == b.x || a.x == -b.x) && (a.y == b.y || a.y == -b.y) &&
    (a.z == b.z || a.z == -b.z)


/-! ### PropSerializer -/

/-- Position/rotation emission guard `rNbr(v.length())` (parser.js lines
191-198): `length` is a square root, so the truthiness test `rNbr(len) !== 0`,
i.e. `len ≥ 1/(2·10^p)`, is expressed exactly on the squared length. -/
def lenRoundNonzero (o : Options) (v : Vec3) : Bool :=
  decide (Q.mk' 1 (4 * 10 ^ (2 * effPrecision o)) ≤ v.x * v.x + v.y * v.y + v.z * v.z)

/-- `handleProps` (parser.js lines 141-217), one `let` per serialized
attribute, in the source's order. -/
def handleProps (e : Env) (s : Store) (i : Nat) : String :=
  let obj := s.get i
  let type := getType obj
  let instanced := isInstanced e obj
  let o := e.opts
  let isCamera := type == "TresPerspectiveCamera" || type == "TresOrthographicCamera"
  let r := ""
  let r := if isCamera then
      let r := r ++ ":make-default=\"false\" "
      let r := if obj.zoom != 1 then r ++ ":zoom=\"" ++ numToString (rNbr o obj.zoom) ++ "\" " else r
      let r := if obj.far != 2000 then r ++ ":far=\"" ++ numToString (rNbr o obj.far) ++ "\" " else r
      if obj.near != 1/10 then r ++ ":near=\"" ++ numToString (rNbr o obj.near) ++ "\" " else r
    else r
  let r := if type == "TresPerspectiveCamera" && obj.fov != 50 then
      r ++ ":fov=\"" ++ numToString (rNbr o obj.fov) ++ "\" " else r
  let r := if !instanced then
      let r := if type == "mesh" && o.shadows then r ++ "cast-shadow receive-shadow " else r
      let r := if obj.geometry.isSome && !obj.isInstancedMesh then
          r ++ ":geometry=\"nodes" ++ sanitizeName obj.name ++ ".geometry\" " else r
      let r := match obj.material with
        | some m =>
            if !obj.isInstancedMesh then
              if m.name != "" then r ++ ":material=\"materials" ++ sanitizeName m.name ++ "\" "
              else r ++ ":material=\"nodes" ++ sanitizeName obj.name ++ ".material\" "
            else r
        | none => r
      let r := if obj.instanceMatrix then
          r ++ ":instance-matrix=\"nodes" ++ sanitizeName obj.name ++ ".instanceMatrix\" " else r
      let r := if obj.instanceColor then
          r ++ ":instance-color=\"nodes" ++ sanitizeName obj.name ++ ".instanceColor\" " else r
      let r := if obj.skeleton then
          r ++ ":skeleton=\"nodes" ++ sanitizeName obj.name ++ ".skeleton\" " else r
      let r := if obj.visible == false then r ++ ":visible=\"false\" " else r
      let r := if obj.castShadow == true then r ++ "cast-shadow " else r
      let r := if obj.receiveShadow == true then r ++ "receive-shadow " else r
      let r := if obj.morphTargetDictionary then
          r ++ ":morph-target-dictionary=\"nodes" ++ sanitizeName obj.name ++ ".morphTargetDictionary\" " else r
      let r := if obj.morphTargetInfluences then
          r ++ ":morph-target-influences=\"nodes" ++ sanitizeName obj.name ++ ".morphTargetInfluences\" " else r
      let r := match obj.intensity with
        | some v => if v != 0 && rNbr o v != 0 then
            r ++ ":intensity=\"" ++ numToString (rNbr o v) ++ "\" " else r
        | none => r
      let r := match obj.angle with
        | some v => if v != 0 && v != piQ / 3 then
            r ++ ":angle=\"" ++ (rDeg o v).render ++ "\" " else r
        | none => r
      let r := match obj.penumbra with
        | some v => if v != 0 && rNbr o v != 0 then
            r ++ ":penumbra=\"" ++ numToString (rNbr o v) ++ "\" " else r
        | none => r
      let r := match obj.decay with
        | some v => if v != 0 && rNbr o v != 1 then
            r ++ ":decay=\"" ++ numToString (rNbr o v) ++ "\" " else r
        | none => r
      let r := match obj.distance with
        | some v => if v != 0 && rNbr o v != 0 then
            r ++ ":distance=\"" ++ numToString (rNbr o v) ++ "\" " else r
        | none => r
      let r := match obj.up with
        | some u => if u != Vec3.mk 0 1 0 then
            r ++ ":up=\"[" ++ numToString (rNbr o u.x) ++ ", " ++ numToString (rNbr o u.y) ++ ", " ++
              numToString (rNbr o u.z) ++ "]\" " else r
        | none => r
      r
    else r
  let r := match obj.color with
    | some hex => if hex != "ffffff" then r ++ "color=\"#" ++ hex ++ "\" " else r
    | none => r
  let r := if lenRoundNonzero o obj.position then
      r ++ ":position=\"[" ++ numToString (rNbr o obj.position.x) ++ ", " ++
        numToString (rNbr o obj.position.y) ++ ", " ++ numToString (rNbr o obj.position.z) ++ "]\" "
    else r
  let r := if lenRoundNonzero o obj.rotation then
      r ++ ":rotation=\"[" ++ (rDeg o obj.rotation.x).render ++ ", " ++
        (rDeg o obj.rotation.y).render ++ ", " ++ (rDeg o obj.rotation.z).render ++ "]\" "
    else r
  let r := if !(rNbr o obj.scale.x == 1 && rNbr o obj.scale.y == 1 && rNbr o obj.scale.z == 1) then
      let rX := rNbr o obj.scale.x
      let rY := rNbr o obj.scale.y
      let rZ := rNbr o obj.scale.z
      if rX == rY && rX == rZ then r ++ ":scale=\"" ++ numToString rX ++ "\" "
      else r ++ ":scale=\"[" ++ numToString rX ++ ", " ++ numToString rY ++ ", " ++
        numToString rZ ++ "]\" "
    else r
  let r := match obj.userDataJson with
    | some j => if o.meta then r ++ ":user-data=\x27" ++ j ++ "\x27 " else r
    | none => r
  r

/-! ### The attribute regex of the pruning engine -/

/-- First capture class of the regex at parser.js line 255: ASCII letters and
the literal hyphen. -/
def propKeyChar (c : Char) : Bool := isLetterChar c || c = '-'

/-- Second capture class: letters, digits, dot, square brackets, hyphen,
comma, space, slash.  Neither class contains the equals sign or a brace. -/
def propValChar (c : Char) : Bool :=
  isLetterChar c || isDigitChar c || c = '.' || c = '[' || c = ']' || c = '-' ||
    c = ',' || c = ' ' || c = '/'

/-- One attempt of the attribute regex at the current position: greedy
key-class run, then the equals sign and opening brace, then a greedy
value-class run, then the closing brace.  Neither class contains the
delimiters, so the greedy runs never backtrack. -/
def tryMatchAt (cs : List Char) : Option (String × String × List Char) :=
  let ks := cs.takeWhile propKeyChar
  match cs.dropWhile propKeyChar with
  | '=' :: '\x7b' :: r2 =>
      let vs := r2.takeWhile propValChar
      match r2.dropWhile propValChar with
      | '\x7d' :: rest => some (String.mk ks, String.mk vs, rest)
      | _ => none
  | _ => none

/-- `matchAll` of the attribute regex over a rendered markup string
(parser.js lines 255-258): scan left to right, on failure advance one
character, on success continue after the match. -/
def matchPropsGo : Nat → List Char → List (String × String)
  | 0, _ => []
  | _ + 1, [] => []
  | fuel + 1, c :: cs =>
      match tryMatchAt (c :: cs) with
      | some (k, v, rest) => (k, v) :: matchPropsGo fuel rest
      | none => matchPropsGo fuel cs

def matchProps (str : String) : List (String × String) :=
  matchPropsGo str.length str.toList

/-- The dynamic `obj.children[0][key].copy(obj[key])` of the transform-overlap
rule (parser.js line 309), for the three transform keys (THREE syncs the
quaternion when a rotation is copied).  Any other key would make the JS throw
on `undefined.copy`; no markup rendered under the configurations considered
yields such a key, and the case is modelled as a no-op. -/
def copyTransformKey (s : Store) (src dst : Nat) (k : String) : Store :=
  if k == "position" then s.modify dst (fun n => { n with position := (s.get src).position })
  else if k == "rotation" then
    s.modify dst (fun n =>
      { n with rotation := (s.get src).rotation, quaternion := (s.get src).quaternion })
  else if k == "scale" then s.modify dst (fun n => { n with scale := (s.get src).scale })
  else s

/-! ### PruningEngine and MarkupEmitter -/

/-- `prune` (parser.js lines 236-334), parameterized by the print function
used for the nested `print(child, …)` calls so that the fuelled `printF`
below stays structurally recursive.  Returns `some replacement` when the node
is pruned (the source returns a string; its `undefined` fall-through is
`none`) together with the updated store.  Debug logging (console) is omitted;
the unused `values1` capture list (line 257) is not bound. -/
def pruneCore (printFn : Store → Nat → Bool → String × Store) (e : Env)
    (s : Store) (i : Nat) (children result oldResult : String) :
    Option String × Store :=
  let obj := s.get i
  let type := getType obj
  let animated := e.hasAnims
  if !obj.removed && !e.opts.keepgroups && !animated && (type == "group" || type == "scene") then
    -- Empty or no-property groups (lines 246-250)
    if result == oldResult || obj.children.isEmpty then
      (some children, s.modify i (fun n => { n with removed := true }))
    else
      let firstId := obj.children.headD 0
      let first := s.get firstId
      let firstProps := handleProps e s firstId
      let keys1 := (matchProps result).map Prod.fst
      let keys2 := (matchProps firstProps).map Prod.fst
      -- Double negative rotations (lines 267-275)
      if obj.children.length == 1 && getType first == type &&
          equalOrNegated obj.rotation first.rotation &&
          keys1.length == 1 && keys2.length == 1 &&
          keys1.headD "" == "rotation" && keys2.headD "" == "rotation" then
        let s1 := (s.modify i (fun n => { n with removed := true })).modify firstId
          (fun n => { n with removed := true })
        let res := first.children.foldl (fun (acc : String × Store) c =>
            let (str, s2) := printFn acc.2 c true
            (acc.1 ++ str, s2)) ("", s1)
        (some res.1, res.2)
      -- Double negative rotations with props (lines 285-295)
      else if obj.children.length == 1 && getType first == type &&
          equalOrNegated obj.rotation first.rotation &&
          keys1.length == 1 && 1 < keys2.length &&
          keys1.headD "" == "rotation" && keys2.contains "rotation" then
        let s1 := s.modify i (fun n => { n with removed := true })
        let s2 := s1.modify firstId (fun n =>
          { n with rotation := Vec3.zero, quaternion := ⟨0, 0, 0, 1⟩ })
        let res := printFn s2 firstId true
        (some res.1, res.2)
      else
        -- Transform overlap (lines 297-314)
        let isChildTransformed := keys2.contains "position" || keys2.contains "rotation" ||
          keys2.contains "scale"
        let hasOtherProps := keys1.any (fun k =>
          !(k == "position" || k == "scale" || k == "rotation"))
        if obj.children.length == 1 && !first.removed && !isChildTransformed && !hasOtherProps then
          let s1 := keys1.foldl (fun st k => copyTransformKey st i firstId k) s
          let res := printFn s1 firstId true
          let s2 := res.2.modify i (fun n => { n with removed := true })
          (some res.1, s2)
        else
          -- Lack of content (lines 316-332)
          let desc := traverseIds s (s.nodes.length + 1) i
          let emptyL := desc.filter (fun oId =>
              let t := getType (s.get oId)
              t != "group" && t != "object3D")
          if emptyL.isEmpty then
            let s1 := emptyL.foldl (fun st oId =>
              st.modify oId (fun n => { n with removed := true })) s
            (some "", s1)
          else (none, s)
  else (none, s)

/-- `print` (parser.js lines 336-401), fuelled (fuel 0 yields the empty
string; every theorem and evaluation supplies sufficient fuel).  Returns the
markup text together with the store updated by pruning's in-place marks. -/
def printF (e : Env) : Nat → Store → Nat → Bool → String × Store
  | 0, s, _, _ => ("", s)
  | fuel + 1, s, i, silent =>
      let obj := s.get i
      let type := getType obj
      let instanced := isInstanced e obj
      let animated := e.hasAnims
      -- Check if the root node is useless (lines 342-345)
      if obj.removed && !obj.children.isEmpty then
        obj.children.foldl (fun (acc : String × Store) c =>
          let res := printF e fuel acc.2 c false
          (acc.1 ++ res.1, res.2)) ("", s)
      else
        let tresType := getTresType type
        -- Bail out on bones (lines 350-353)
        if !e.opts.bones && type == "bone" then
          ("<TresPrimitive :object=\"nodes" ++ sanitizeName obj.name ++ "\" />", s)
        -- Lights with targets (lines 356-361)
        else if strEndsWith type "Light" && obj.target.isSome &&
            obj.children.head? == obj.target then
          let tgt := obj.target.getD 0
          ("<" ++ tresType ++ " " ++ handleProps e s i ++ ":target=\"nodes" ++
            sanitizeName obj.name ++ ".target\">\n        <TresPrimitive :object=\"nodes" ++
            sanitizeName obj.name ++ ".target\" " ++ handleProps e s tgt ++
            "/>\n      </" ++ tresType ++ ">", s)
        else
          -- Collect children (line 364)
          let cres := obj.children.foldl (fun (acc : String × Store) c =>
            let res := printF e fuel acc.2 c false
            (acc.1 ++ res.1, res.2)) ("", s)
          let children := cres.1
          let s1 := cres.2
          let rt : String × String :=
            if instanced then
              let nm := match obj.geometry, obj.material with
                | some g, some m =>
                    (match e.geoTbl.lookup (g.uuid ++ m.name) with
                     | some rec0 => rec0.name
                     | none => "")
                | _, _ => ""
              ("<instances." ++ nm ++ " ", "instances." ++ nm)
            else if obj.isInstancedMesh then
              let geo := "nodes" ++ sanitizeName obj.name ++ ".geometry"
              let mat := match obj.material with
                | some m =>
                    if m.name != "" then "materials" ++ sanitizeName m.name
                    else "nodes" ++ sanitizeName obj.name ++ ".material"
                | none => "nodes" ++ sanitizeName obj.name ++ ".material"
              ("<TresInstancedMesh :args=\"[" ++ geo ++ ", " ++ mat ++ ", " ++
                (if obj.count == 0 then "nodes" ++ sanitizeName obj.name ++ ".count"
                 else numToString obj.count) ++ "]\" ", "TresInstancedMesh")
            else if type == "bone" then
              ("<TresPrimitive :object=\"nodes" ++ sanitizeName obj.name ++ "\" ", type)
            else ("<" ++ tresType ++ " ", type)
          -- Names (line 383)
          let result0 := if obj.name.length != 0 &&
              (e.opts.keepnames || obj.morphTargetDictionary || animated) then
            rt.1 ++ "name=\"" ++ obj.name ++ "\" " else rt.1
          let oldResult := result0
          let result1 := result0 ++ handleProps e s1 i
          let pres := pruneCore (fun st j sil => printF e fuel st j sil) e s1 i children
            result1 oldResult
          match pres.1 with
          | some p => (p, pres.2)
          | none =>
              -- Close tag (lines 393-399)
              let result2 := result1 ++ (if children.length != 0 then ">" else "/>") ++ "\n"
              if children.length != 0 then
                (result2 ++ children ++
                  (if rt.2 == "bone" then "</TresPrimitive>" else "</" ++ tresType ++ ">"),
                  pres.2)
              else (result2, pres.2)
termination_by structural fuel _ _ _ => fuel

/-- `prune` (parser.js lines 236-334) as the source names it: `pruneCore`
with the nested print calls performed by `printF` at the given fuel. -/
def pruneF (e : Env) (fuel : Nat) (s : Store) (i : Nat)
    (children result oldResult : String) : Option String × Store :=
  pruneCore (fun st j sil => printF e fuel st j sil) e s i children result oldResult


/-! ### TransformFlattener -/

/-- A local transform triple as read by the flatten pass. -/
structure TRS where
  pos : Vec3
  quat : Quat
  scl : Vec3
deriving DecidableEq

/-- The world-transform computation of the flatten pass (parser.js lines
441-446): composing the ancestor chain's TRS matrices and decomposing the
product into position, quaternion and scale — plus THREE's Euler
resynchronisation when the quaternion is copied back (line 450) — uses
floating-point trigonometry and square roots, which have no exact rational
counterpart.  It is kept abstract as a deterministic parameter: given the
local TRS chain from the scene root down to the mesh, it returns the
decomposed world position, quaternion, Euler rotation, and scale. -/
structure MatrixSemantics where
  decomposeWorld : List TRS → Vec3 × Quat × Vec3 × Vec3

/-- A placeholder matrix semantics, used in evaluations whose graphs contain
no meshes (the flatten pass never consults it there). -/
def trivialSemantics : MatrixSemantics :=
  ⟨fun _ => (Vec3.zero, ⟨0, 0, 0, 1⟩, Vec3.zero, Vec3.one)⟩

/-- The local TRS chain from the root down to node `i` (via parent links). -/
def chainOf (s : Store) : Nat → Nat → List TRS
  | 0, _ => []
  | fuel + 1, i =>
      let n := s.get i
      match n.parent with
      | some p => chainOf s fuel p ++ [TRS.mk n.position n.quaternion n.scale]
      | none => [TRS.mk n.position n.quaternion n.scale]

/-- The transform-flattening pre-pass (parser.js lines 436-459): for every
mesh in the collected object list, bake the decomposed world transform into
the local fields and re-parent the mesh to the scene root when nested. -/
def flattenPass (ms : MatrixSemantics) (objects : List Nat) (root : Nat) (s : Store) : Store :=
  objects.foldl (fun st i =>
    let n := st.get i
    if n.isMesh then
      let w := ms.decomposeWorld (chainOf st (st.nodes.length + 1) i)
      let st1 := st.modify i (fun m =>
        { m with
          position := w.1
          quaternion := w.2.1
          rotation := w.2.2.1
          scale := w.2.2.2 })
      if (st1.get i).parent != some root then st1.addChild root i else st1
    else st) s

/-- `let parent = o.parent; while (parent && parent.__removed) parent =
parent.parent; if (!parent) parent = gltf.scene` (parser.js lines 469-473). -/
def nearestLiveAncestor (s : Store) (root : Nat) : Nat → Option Nat → Nat
  | 0, p =>
      (match p with
       | some q => q
       | none => root)
  | fuel + 1, p =>
      match p with
      | none => root
      | some q =>
          if (s.get q).removed then nearestLiveAncestor s root fuel (s.get q).parent else q

/-- The structural re-parenting pass after the dry run (parser.js lines
466-480): move each removed node's children up to its nearest live ancestor
(or the root), then detach every removed node from its parent. -/
def reparentPass (objects : List Nat) (root : Nat) (s : Store) : Store :=
  let s1 := objects.foldl (fun st i =>
    if (st.get i).removed then
      let p := nearestLiveAncestor st root (st.nodes.length + 1) ((st.get i).parent)
      ((st.get i).children).foldl (fun st2 c => st2.addChild p c) st
    else st) s
  objects.foldl (fun st i =>
    if (st.get i).removed then
      match (st.get i).parent with
      | some p => st.removeChild p i
      | none => st
    else st) s1

/-! ### TypeDescriptorEmitter and auxiliary emitters -/

/-- Order-preserving de-duplication, modelling `[...new Set(l)]`. -/
def dedupKeep [DecidableEq α] (l : List α) : List α :=
  l.foldl (fun acc a => if a ∈ acc then acc else acc ++ [a]) []

/-- `printTypes` (parser.js lines 95-125): the derived static type
description (mesh and top-level bone names, distinct named materials, the
animation name union).  Defined by the source but never invoked by `parse`. -/
def printTypes (s : Store) (objects : List Nat) (anims : List String)
    (hasInstances : Bool) : String :=
  let objs := objects.map (s.get ·)
  let meshes := objs.filter (fun o => o.isMesh && !o.removed)
  let bones := objs.filter (fun o => o.isBone &&
      !(match o.parent with
        | some p => (s.get p).isBone
        | none => false) && !o.removed)
  let mats := dedupKeep ((objs.filter (fun o => o.material.isSome &&
      (o.material.getD {}).name != "")).map (fun o => o.material.getD {}))
  let animationTypes := if anims.length != 0 then
      "\n\n  type ActionName = " ++
        String.intercalate " | " (anims.map (fun n => "\"" ++ n ++ "\"")) ++
        ";\n\n  interface GLTFAction extends THREE.AnimationClip \x7b name: ActionName \x7d\n"
    else ""
  let types := dedupKeep ((meshes ++ bones).map getType)
  let contextType := if hasInstances then
      "\ntype ContextType = Record<string, React.ForwardRefExoticComponent<\n     " ++
        String.intercalate " | " (types.map (fun t =>
          "JSX.IntrinsicElements[\x27" ++ t ++ "\x27]")) ++
        "\n    >>\n"
    else ""
  "\n" ++ animationTypes ++ "\ntype GLTFResult = GLTF & \x7b\n    nodes: \x7b\n      " ++
    String.intercalate "," (meshes.map (fun o =>
      (if isVarName o.name then o.name else "[\x27" ++ o.name ++ "\x27]") ++
        ": THREE." ++ o.type)) ++
    "\n      " ++
    String.intercalate "," (bones.map (fun o =>
      (if isVarName o.name then o.name else "[\x27" ++ o.name ++ "\x27]") ++
        ": THREE." ++ o.type)) ++
    "\n    \x7d\n    materials: \x7b\n      " ++
    String.intercalate "," (mats.map (fun m =>
      (if isVarName m.name then m.name else "[\x27" ++ m.name ++ "\x27]") ++
        ": THREE." ++ m.type)) ++
    "\n    \x7d\n    animations: GLTFAction[]\n  \x7d\n" ++ contextType

/-- `parseExtras` (parser.js lines 407-415). -/
def parseExtras (extras : Option (List (String × String))) : String :=
  match extras with
  | some kvs =>
      String.intercalate "\n" (kvs.map (fun kv => upperFirst kv.1 ++ ": " ++ kv.2)) ++ "\n"
  | none => ""

/-- Prefix test on lists (by boolean equality). -/
def listIsPrefix [DecidableEq α] : List α → List α → Bool
  | [], _ => true
  | _ :: _, [] => false
  | a :: as, b :: bs => a == b && listIsPrefix as bs

/-- Contiguous-sublist test on lists. -/
def listIsInfix [DecidableEq α] (needle : List α) : List α → Bool
  | [] => listIsPrefix needle []
  | b :: bs => listIsPrefix needle (b :: bs) || listIsInfix needle bs

/-- `String.includes` / substring containment. -/
def substrMem (hay needle : String) : Bool :=
  listIsInfix needle.toList hay.toList

/-- `url.substring(0, url.lastIndexOf('/') + 1)` (parser.js line 528). -/
def dirOf (url : String) : String :=
  let cs := url.toList
  match ((List.range cs.length).filter (fun k => cs.getD k ' ' = '/')).getLast? with
  | some k => String.mk (cs.take (k + 1))
  | none => ""

/-- `matName.replace(/[^a-zA-Z0-9]/g, '_')` (parser.js lines 529-531). -/
def underscoreName (s : String) : String :=
  String.mk (s.toList.map (fun c => if isLetterChar c || isDigitChar c then c else '_'))

/-- The unlit-material fix-up emitter (parser.js lines 494-541), keyed off the
`gltf.parser.json` side channel. -/
def materialFixCode (json : GltfJson) (url : String) : String :=
  let hasUnlit := match json.extensionsUsed with
    | some l => l.contains "KHR_materials_unlit"
    | none => false
  match json.materials with
  | some mats =>
      if hasUnlit then
        let needsTextureLoader := mats.any (fun m => m.unlit && m.emissiveTexture.isSome)
        if needsTextureLoader then
          let prologue :=
            "\n// Fix unlit materials: Apply emissive textures to base color for proper display\nimport \x7b TextureLoader \x7d from \x27three\x27\nconst textureLoader = new TextureLoader()\n\n"
          let body := mats.foldl (fun acc m =>
            if m.unlit then
              let matName := m.name
              if m.baseColorTexture then
                acc ++ "materials" ++ sanitizeName matName ++ ".color.setRGB(1, 1, 1)\n"
              else
                match m.emissiveTexture, json.images with
                | some texIndex, some images =>
                    let acc1 := acc ++ "materials" ++ sanitizeName matName ++
                      ".color.setRGB(1, 1, 1)\n"
                    let imageIndex := match json.textures with
                      | some txs =>
                          (match txs.get? texIndex with
                           | some t => t.source
                           | none => none)
                      | none => none
                    match imageIndex with
                    | some ii =>
                        match images.get? ii with
                        | some img =>
                            (match img.uri with
                             | some imagePath =>
                                 if imagePath != "" then
                                   let dir := dirOf url
                                   let un := underscoreName matName
                                   acc1 ++ "const " ++ un ++
                                     "_map = textureLoader.load(\x27" ++ dir ++ imagePath ++
                                     "\x27)\n" ++ un ++ "_map.flipY = false\n" ++
                                     "materials" ++ sanitizeName matName ++ ".map = " ++ un ++
                                     "_map\n"
                                 else acc1
                             | none => acc1)
                        | none => acc1
                    | none => acc1
                | _, _ => acc
            else acc) ""
          let epilogue :=
            "\n// Mark materials as needing update\nObject.values(materials).forEach(mat => mat.needsUpdate = true)\n"
          prologue ++ body ++ epilogue
        else ""
      else ""
  | none => ""

/-! ### The top-level compilation -/

/-- Input accepted by `parse` (parser.js lines 6-10): a loaded GLTF structure
or a bare `Object3D`, the latter wrapped with no animations and an empty
parser JSON. -/
inductive ParseInput where
  | gltf (g : Gltf)
  | object3d (s : Store) (root : Nat)
deriving DecidableEq

def ParseInput.toGltf : ParseInput → Gltf
  | .gltf g => g
  | .object3d s root => { store := s, scene := root, animations := [], json := {} }

/-- `parse` (parser.js lines 6-563): collect objects, build the duplicate
tables, flatten (unless groups are kept), dry-run print, re-parent and detach
removed nodes, final print, then assemble header and single-file component.
Console logging (`p`, debug traces, the header log at line 557) is omitted;
`ms` abstracts the floating-point matrix decomposition of the flatten pass. -/
def parse (ms : MatrixSemantics) (input : ParseInput) (opts : Options) : String :=
  let gltf := input.toGltf
  let url := (if strStartsWith (strToLower opts.fileName) "http" then "" else "/") ++ opts.fileName
  let hasAnimations := gltf.animations.length != 0
  let s0 := gltf.store
  let objects := traverseIds s0 (s0.nodes.length + 1) gltf.scene
  let objNodes := objects.map (s0.get ·)
  let _mats := buildMaterials objNodes
  let geoTbl := pruneSingletons opts.instanceall (buildGeometries objNodes)
  let _hasInstances := (opts.instanceOpt || opts.instanceall) && geoTbl.length != 0
  let e : Env := { opts := opts, geoTbl := geoTbl, hasAnims := hasAnimations }
  let s1 := if !opts.keepgroups then flattenPass ms objects gltf.scene s0 else s0
  let s2 := if !opts.keepgroups then
      reparentPass objects gltf.scene (printF e (s1.nodes.length + 1) s1 gltf.scene false).2
    else s1
  let scene := (printF e (s2.nodes.length + 1) s2 gltf.scene false).1
  let header := "/*\n" ++
    (match opts.headerOpt with
     | some h => h
     | none => "Auto-generated by: https://github.com/OmnomnomTee/gltfvue") ++ " " ++
    (match opts.sizeOpt with
     | some sz => "\nFiles: " ++ sz
     | none => "") ++ "\n" ++
    parseExtras (match gltf.json.asset with
      | some a => a.extras
      | none => none) ++ "*/"
  let _hasPrimitives := substrMem scene "<TresPrimitive"
  let fix := materialFixCode gltf.json url
  let result := "<script setup lang=\"ts\">\nimport \x7b useGLTF \x7d from \x27@tresjs/cientos\x27" ++
    (if hasAnimations then "\nimport \x7b useAnimations \x7d from \x27@tresjs/cientos\x27" else "") ++
    "\n\nconst \x7b nodes, materials" ++ (if hasAnimations then ", animations" else "") ++
    " \x7d = await useGLTF(\x27" ++ url ++ "\x27)\n" ++ fix ++
    (if hasAnimations then "const \x7b actions \x7d = useAnimations(animations)" else "") ++
    "\n</script>\n\n<template>\n  <TresGroup>\n" ++ scene ++ "\n  </TresGroup>\n</template>"
  header ++ "\n" ++ result

/-- Error-handling shape of `parse` (parser.js lines 461-492): the printing
phase runs in a `try`; any exception is logged and swallowed by the `catch`
(lines 484-486), leaving `scene` unset, after which the unconditional
`scene.includes('<TresPrimitive')` at line 492 itself throws a `TypeError`
that escapes the call.  The printing phase's outcome is the parameter. -/
def parseTryCatch (printOutcome : Except String String) : Except String String :=
  match printOutcome with
  | .ok scene => .ok scene
  | .error _ =>
      .error "TypeError: Cannot read properties of undefined (reading \x27includes\x27)"

/-- The signature pair as the specification words it (spec §4.1, claims C3 and
C5): geometry identity with the material name, the latter the empty string
when the material is absent.  Deliberately follows the spec's words, for
comparison with the source's `geometryKey`. -/
def specSignature (n : Node) : Option (String × String) :=
  match n.geometry with
  | some g =>
      if n.isMesh then
        some (g.uuid, (match n.material with
          | some m => m.name
          | none => ""))
      else none
  | none => none

/-- Number of meshes in a node list carrying a given spec signature. -/
def specSigCount (ns : List Node) (sig : String × String) : Nat :=
  (ns.filter (fun n => specSignature n == some sig)).length


/-! ### Claim scenarios and theorems -/

/-- Claim C1 scenario: a scene whose only child is a group with rotation
(−π/2, 0, 0), whose only child is a group with rotation (π/2, 0, 0), whose
children are two bones; no other serialized attribute anywhere. -/
def c1Store : Store := ⟨[
  { type := "Scene", children := [1] },
  { type := "Group", rotation := ⟨-(piQ/2), 0, 0⟩, children := [2], parent := some 0 },
  { type := "Group", rotation := ⟨piQ/2, 0, 0⟩, children := [3, 4], parent := some 1 },
  { type := "Bone", name := "BoneA", isBone := true, parent := some 2 },
  { type := "Bone", name := "BoneB", isBone := true, parent := some 2 }]⟩

/-- Claim C1: the claim says compiling a (−π/2,0,0)-rotation group whose only
child is a (π/2,0,0)-rotation group (no other attributes on either) emits
only the grandchildren's markup with no wrapper for either group.  On this
input the compiled output still contains the inner group's wrapper, rotation
attribute included: the pruning engine's attribute regex (parser.js line 255)
expects JSX `key={value}` syntax and never matches the Vue `:key="value"`
markup this port emits, so the double-negated-rotation rule (lines 267-275)
that the source documents for exactly this shape is dead code. -/
theorem c1_rotation_cancellation_eval :
    substrMem (parse trivialSemantics (.gltf { store := c1Store }) {})
      "<TresGroup :rotation=\"[Math.PI / 2, 0, 0]\"" = true := by decide

/-- Claim C2 scenario: a group carrying only a position attribute, with a
single camera child carrying none of position/rotation/scale. -/
def c2Store : Store := ⟨[
  { type := "Group", position := ⟨10, 0, 0⟩, children := [1] },
  { type := "PerspectiveCamera", parent := some 0 }]⟩

def c2Env : Env := { opts := {}, geoTbl := [], hasAnims := false }

/-- Claim C2: the single-child transform pass-through rule fires here (the
parent is marked removed and the child's markup is returned as the
replacement), but no transform component is copied: the parsed key list
`keys1` is empty because the JSX-era attribute regex never matches the Vue
markup, so the `keys1.forEach(key => obj.children[0][key].copy(obj[key]))`
loop at parser.js line 309 copies nothing and the replacement markup carries
no position attribute — against the claim and lines 307-308's own comment. -/
theorem c2_transform_passthrough_eval :
    (printF c2Env 10 c2Store 0 false).1 =
        "<TresTresPerspectiveCamera :make-default=\"false\" />\n" ∧
      ((printF c2Env 10 c2Store 0 false).2.get 0).removed = true ∧
      ((printF c2Env 10 c2Store 0 false).2.get 1).position = Vec3.zero ∧
      substrMem (printF c2Env 10 c2Store 0 false).1 ":position" = false := by
  refine ⟨by decide, by decide, by decide, by decide⟩

/-- Claim C3: for a mesh with geometry `g1` and no material the claim (and
spec §4.1) says the signature is the geometry identity concatenated with the
empty string, i.e. `"g1"`.  The source's `uuid + material?.name ?? ''`
parses as `(uuid + material?.name) ?? ''`, so the key actually computed is
`"g1undefined"`; the `?? ''` written in the source shows the intended
empty-string fallback is dead.  The spec-worded signature (`specSignature`)
confirms the intended pair. -/
theorem c3_signature_eval :
    geometryKey ⟨"g1"⟩ none = "g1undefined" ∧
      geometryKey ⟨"g1"⟩ none ≠ "g1" ∧
      specSignature { type := "Mesh", isMesh := true, geometry := some ⟨"g1"⟩ } =
        some ("g1", "") := by
  refine ⟨by decide, by decide, by decide⟩

/-- Claim C7 scenario: compilation of a bare scene. -/
def c7Store : Store := ⟨[{ type := "Scene" }]⟩

/-- Claim C7 (counterexample): the type-descriptor emitter's output always
contains the marker `GLTFResult`, but the compiled output for this input
contains no such text: `printTypes` is defined by the source yet never
invoked by `parse`, so no type artifact accompanies the markup document. -/
theorem c7_types_counterexample :
    substrMem (printTypes c7Store [0] [] false) "GLTFResult" = true ∧
      substrMem (parse trivialSemantics (.gltf { store := c7Store }) {})
        "GLTFResult" = false := by
  refine ⟨by decide, by decide⟩

/-- Claim C7 (amended): the compilation returns a single text document —
header comment plus single-file component — and nothing else; on the bare
scene the output is exactly this text, with no type-descriptor artifact. -/
theorem c7_output_is_single_document :
    parse trivialSemantics (.gltf { store := c7Store }) {} =
      "/*\nAuto-generated by: https://github.com/OmnomnomTee/gltfvue \n*/\n<script setup lang=\"ts\">\nimport \x7b useGLTF \x7d from \x27@tresjs/cientos\x27\n\nconst \x7b nodes, materials \x7d = await useGLTF(\x27/model\x27)\n\n</script>\n\n<template>\n  <TresGroup>\n<TresScene />\n\n  </TresGroup>\n</template>" := by
  decide

/-- Claim C8: whatever exception ends the compile recursion, the call's
outcome is one fixed `TypeError` (raised by `scene.includes` reading the
unset output), carrying no information about the failing node's path — the
tagged error result the claim mandates is never produced. -/
theorem c8_traversal_failure (e₁ e₂ : String) :
    parseTryCatch (.error e₁) =
        .error "TypeError: Cannot read properties of undefined (reading \x27includes\x27)" ∧
      parseTryCatch (.error e₁) = parseTryCatch (.error e₂) :=
  ⟨rfl, rfl⟩

/-- Claim C9: compilation is deterministic — equal graphs and configurations
(each run handed its own copy of the graph value) compile to identical text,
for any fixed matrix-decomposition semantics. -/
theorem c9_determinism (ms : MatrixSemantics) (i₁ i₂ : ParseInput) (o₁ o₂ : Options)
    (hi : i₁ = i₂) (ho : o₁ = o₂) : parse ms i₁ o₁ = parse ms i₂ o₂ := by
  subst hi; subst ho; rfl

/-- Witness for C9 at a concrete input. -/
theorem c9_determinism_witness :
    parse trivialSemantics (.gltf { store := c7Store }) {} =
      parse trivialSemantics (.gltf { store := c7Store }) {} :=
  c9_determinism trivialSemantics _ _ _ _ rfl rfl


/-- Claim C10: with the bones option unset, a (non-removed) bone node is
compiled to one self-closing generic primitive reference; the recursion
returns before child compilation, the store is untouched, and the result is
independent of the bone's subtree, whatever the fuel. -/
theorem c10_bone_primitive (e : Env) (fuel : Nat) (s : Store) (i : Nat) (silent : Bool)
    (hb : e.opts.bones = false) (ht : (s.get i).type = "Bone")
    (hr : (s.get i).removed = false) :
    printF e (fuel + 1) s i silent =
      ("<TresPrimitive :object=\"nodes" ++ sanitizeName (s.get i).name ++ "\" />", s) := by
  have htype : getType (s.get i) = "bone" := by
    unfold getType
    rw [ht]
    decide
  simp only [printF, htype, hb, hr]
  simp

/-- Witness for C10: a lone bone named Root. -/
theorem c10_bone_primitive_witness :
    printF ⟨{}, [], false⟩ 1 ⟨[{ type := "Bone", name := "Root", isBone := true }]⟩ 0 false =
      ("<TresPrimitive :object=\"nodes.Root\" />",
        ⟨[{ type := "Bone", name := "Root", isBone := true }]⟩) := by
  have h := c10_bone_primitive ⟨{}, [], false⟩ 0
    ⟨[{ type := "Bone", name := "Root", isBone := true }]⟩ 0 false rfl rfl rfl
  rw [h]
  decide


/-- The trigger of the angle canonicalization (claim C6): the value's rounded
5-decimal magnitude coincides with that of π/i or π·i for some i in 1..10
(`List.range' 1 10` is the list 1,…,10) — exactly the source's comparison and
the claim's "within 5-decimal rounding tolerance of ±π/i or ±π·i". -/
def piMatch (x : Q) : Prop :=
  ∃ i ∈ List.range' 1 10,
    (intAbs (jsRound (x * 100000)) = jsRound (piQ / Q.ofN i * 100000) ∨
     intAbs (jsRound (x * 100000)) = jsRound (piQ * Q.ofN i * 100000))

instance (x : Q) : Decidable (piMatch x) := by
  unfold piMatch
  infer_instance

theorem findSomeEqNoneIff {α β : Type} {f : α → Option β} {l : List α} :
    l.findSome? f = none ↔ ∀ a ∈ l, f a = none := by
  induction l with
  | nil => simp [List.findSome?]
  | cons a l ih =>
      cases h : f a with
      | some b => simp [List.findSome?, h]
      | none => simp [List.findSome?, h, ih]

theorem existsOfFindSomeEqSome {α β : Type} {f : α → Option β} {l : List α} {b : β}
    (h : l.findSome? f = some b) : ∃ a ∈ l, f a = some b := by
  induction l with
  | nil => simp [List.findSome?] at h
  | cons a l ih =>
      cases ha : f a with
      | some c =>
          simp only [List.findSome?, ha] at h
          exact ⟨a, by simp, by rw [ha, h]⟩
      | none =>
          simp only [List.findSome?, ha] at h
          obtain ⟨x, hx, hfx⟩ := ih h
          exact ⟨x, by simp [hx], hfx⟩

/-- Claim C6: the angle formatter maps a radian value within 5-decimal
rounding tolerance of ±π/i or ±π·i (i in 1..10) to the sign-prefixed
symbolic π form, and any other value to the decimal rounded at the
configured precision; in particular exactly π/2 maps to "Math.PI / 2" and
0.3 maps to the number 0.3. -/
theorem c6_angle_canonicalization :
    (∀ (o : Options) (x : Q),
      (piMatch x → ∃ suffix : String,
        rDeg o x = .str ((if x < 0 then "-" else "") ++ "Math.PI" ++ suffix)) ∧
      (¬ piMatch x → rDeg o x = .num (rNbr o x))) ∧
    rDeg {} (piQ / 2) = StrNum.str "Math.PI / 2" ∧
    rDeg {} (3 / 10) = StrNum.num (3 / 10) := by
  refine ⟨?_, by decide, by decide⟩
  intro o x
  constructor
  · rintro ⟨i, hi, hcmp⟩
    simp only [rDeg]
    cases hf1 : (List.range' 1 10).findSome? (fun i =>
        if intAbs (jsRound (x * 100000)) = jsRound (piQ / Q.ofN i * 100000) then
          some (StrNum.str ((if x < 0 then "-" else "") ++ "Math.PI" ++
            (if 1 < i then " / " ++ Nat.repr i else "")))
        else none) with
    | some s =>
        obtain ⟨j, _, hj⟩ := existsOfFindSomeEqSome hf1
        by_cases hc : intAbs (jsRound (x * 100000)) = jsRound (piQ / Q.ofN j * 100000)
        · rw [if_pos hc] at hj
          injection hj with hj
          exact ⟨_, by rw [← hj]⟩
        · rw [if_neg hc] at hj
          exact absurd hj (by simp)
    | none =>
        cases hf2 : (List.range' 1 10).findSome? (fun i =>
            if intAbs (jsRound (x * 100000)) = jsRound (piQ * Q.ofN i * 100000) then
              some (StrNum.str ((if x < 0 then "-" else "") ++ "Math.PI" ++
                (if 1 < i then " * " ++ Nat.repr i else "")))
            else none) with
        | some s =>
            obtain ⟨j, _, hj⟩ := existsOfFindSomeEqSome hf2
            by_cases hc : intAbs (jsRound (x * 100000)) = jsRound (piQ * Q.ofN j * 100000)
            · rw [if_pos hc] at hj
              injection hj with hj
              exact ⟨_, by rw [← hj]⟩
            · rw [if_neg hc] at hj
              exact absurd hj (by simp)
        | none =>
            exfalso
            have h1 := findSomeEqNoneIff.mp hf1 i hi
            have h2 := findSomeEqNoneIff.mp hf2 i hi
            rcases hcmp with hc | hc
            · rw [if_pos hc] at h1
              exact absurd h1 (by simp)
            · rw [if_pos hc] at h2
              exact absurd h2 (by simp)
  · intro hnm
    simp only [rDeg]
    cases hf1 : (List.range' 1 10).findSome? (fun i =>
        if intAbs (jsRound (x * 100000)) = jsRound (piQ / Q.ofN i * 100000) then
          some (StrNum.str ((if x < 0 then "-" else "") ++ "Math.PI" ++
            (if 1 < i then " / " ++ Nat.repr i else "")))
        else none) with
    | some s =>
        obtain ⟨j, hjm, hj⟩ := existsOfFindSomeEqSome hf1
        by_cases hc : intAbs (jsRound (x * 100000)) = jsRound (piQ / Q.ofN j * 100000)
        · exact absurd ⟨j, hjm, Or.inl hc⟩ hnm
        · rw [if_neg hc] at hj
          exact absurd hj (by simp)
    | none =>
        cases hf2 : (List.range' 1 10).findSome? (fun i =>
            if intAbs (jsRound (x * 100000)) = jsRound (piQ * Q.ofN i * 100000) then
              some (StrNum.str ((if x < 0 then "-" else "") ++ "Math.PI" ++
                (if 1 < i then " * " ++ Nat.repr i else "")))
            else none) with
        | some s =>
            obtain ⟨j, hjm, hj⟩ := existsOfFindSomeEqSome hf2
            by_cases hc : intAbs (jsRound (x * 100000)) = jsRound (piQ * Q.ofN j * 100000)
            · exact absurd ⟨j, hjm, Or.inr hc⟩ hnm
            · rw [if_neg hc] at hj
              exact absurd hj (by simp)
        | none => rfl

/-- Witness for C6: π/4 triggers the symbolic branch (at i = 4), the value 1
does not and falls through to the rounded decimal. -/
theorem c6_angle_canonicalization_witness :
    piMatch (piQ / 4) ∧
      (∃ suffix : String, rDeg {} (piQ / 4) =
        .str ((if (piQ / 4 : Q) < 0 then "-" else "") ++ "Math.PI" ++ suffix)) ∧
      ¬ piMatch (Q.ofN 1) ∧ rDeg {} (Q.ofN 1) = StrNum.num (rNbr {} (Q.ofN 1)) :=
  ⟨⟨4, by decide, Or.inl (by decide)⟩,
   (c6_angle_canonicalization.1 {} (piQ / 4)).1 ⟨4, by decide, Or.inl (by decide)⟩,
   by decide,
   (c6_angle_canonicalization.1 {} (Q.ofN 1)).2 (by decide)⟩


/-! ### Claim C4: uniqueness of assigned duplicate names -/

/-- Numeric value of a decimal digit character. -/
def digitVal (c : Char) : Nat := c.toNat - 48

theorem digitVal_digitChar (d : Nat) (h : d < 10) : digitVal (Nat.digitChar d) = d := by
  interval_cases d <;> rfl

theorem decode_toDigitsCore : ∀ (fuel n : Nat) (ds : List Char), n < 10 ^ fuel →
    (Nat.toDigitsCore 10 fuel n ds).foldl (fun acc c => acc * 10 + digitVal c) 0 =
      ds.foldl (fun acc c => acc * 10 + digitVal c) n := by
  intro fuel
  induction fuel with
  | zero =>
      intro n ds h
      simp only [pow_zero, Nat.lt_one_iff] at h
      subst h
      simp [Nat.toDigitsCore]
  | succ fuel ih =>
      intro n ds h
      simp only [Nat.toDigitsCore]
      by_cases h10 : n / 10 = 0
      · have hn : n < 10 := by omega
        simp only [h10, if_true, List.foldl]
        rw [digitVal_digitChar (n % 10) (by omega)]
        rw [Nat.mod_eq_of_lt hn, Nat.zero_mul, Nat.zero_add]
      · simp only [h10, if_false]
        rw [ih (n / 10) _ (by
          have : (10 : Nat) ^ (fuel + 1) = 10 ^ fuel * 10 := by ring
          omega)]
        simp only [List.foldl]
        rw [digitVal_digitChar (n % 10) (by omega)]
        congr 1
        omega

theorem decode_repr (n : Nat) :
    (Nat.toDigits 10 n).foldl (fun acc c => acc * 10 + digitVal c) 0 = n := by
  unfold Nat.toDigits
  rw [decode_toDigitsCore (n + 1) n []
    (lt_of_lt_of_le (Nat.lt_pow_self (by norm_num) n)
      (Nat.pow_le_pow_right (by norm_num) (Nat.le_succ n)))]
  rfl

theorem toDigits_injective {m n : Nat} (h : Nat.toDigits 10 m = Nat.toDigits 10 n) :
    m = n := by
  have hm := decode_repr m
  have hn := decode_repr n
  rw [h] at hm
  omega

/-- Decimal representations of distinct naturals are distinct (used for the
`attempt + index` suffix candidates of `uniqueName`). -/
theorem reprInjective {m n : Nat} (h : Nat.repr m = Nat.repr n) : m = n := by
  apply toDigits_injective
  have hd := congrArg String.data h
  simpa [Nat.repr, List.asString] using hd

theorem repr_ne_empty (n : Nat) : Nat.repr n ≠ "" := by
  intro h
  have hdata := congrArg String.data h
  have hnil : Nat.toDigits 10 n = [] := by
    simpa [Nat.repr, List.asString] using hdata
  have hd := decode_repr n
  rw [hnil] at hd
  simp at hd
  subst hd
  exact absurd h (by decide)

theorem attemptName_injective (attempt : String) :
    Function.Injective (attemptName attempt) := by
  intro i j h
  unfold attemptName at h
  by_cases hi : 0 < i <;> by_cases hj : 0 < j <;>
    simp only [hi, hj, if_true, if_false] at h
  · have hdata := congrArg String.data h
    simp only [String.data_append] at hdata
    have hcancel := List.append_cancel_left hdata
    exact reprInjective (String.ext hcancel)
  · have hlen := congrArg String.length h
    rw [String.length_append] at hlen
    have hz : (Nat.repr i).length = 0 := by omega
    exact absurd (String.ext (List.eq_nil_of_length_eq_zero hz)) (repr_ne_empty i)
  · have hlen := congrArg String.length h
    rw [String.length_append] at hlen
    have hz : (Nat.repr j).length = 0 := by omega
    exact absurd (String.ext (List.eq_nil_of_length_eq_zero hz)) (repr_ne_empty j)
  · omega

/-- The fuelled `uniqueNameGo` returns a candidate outside `names` as soon as
some index in its search window does. -/
theorem uniqueNameGo_fresh (names : List String) (attempt : String) :
    ∀ (fuel idx : Nat), (∃ j ≤ fuel, attemptName attempt (idx + j) ∉ names) →
      uniqueNameGo names attempt fuel idx ∉ names := by
  intro fuel
  induction fuel with
  | zero =>
      rintro idx ⟨j, hj, h⟩
      interval_cases j
      simpa using h
  | succ fuel ih =>
      rintro idx ⟨j, hj, h⟩
      simp only [uniqueNameGo]
      by_cases hc : attemptName attempt idx ∈ names
      · simp only [hc, if_true]
        apply ih (idx + 1)
        cases j with
        | zero => exact absurd hc (by simpa using h)
        | succ k =>
            refine ⟨k, by omega, ?_⟩
            have hidx : idx + 1 + k = idx + (k + 1) := by omega
            rw [hidx]
            exact h
      · simp [hc]

/-- Pigeonhole: among the first `names.length + 2` candidates (which are
pairwise distinct) one lies outside `names`. -/
theorem exists_fresh_index (names : List String) (attempt : String) :
    ∃ j ≤ names.length + 1, attemptName attempt j ∉ names := by
  by_contra hcon
  push_neg at hcon
  have hsub : (Finset.range (names.length + 2)).image (attemptName attempt) ⊆
      names.toFinset := by
    intro s hs
    simp only [Finset.mem_image, Finset.mem_range] at hs
    obtain ⟨j, hj, rfl⟩ := hs
    exact List.mem_toFinset.mpr (hcon j (by omega))
  have hcard := Finset.card_le_card hsub
  rw [Finset.card_image_of_injective _ (attemptName_injective attempt),
    Finset.card_range] at hcard
  have hle := names.toFinset_card_le
  omega

/-- `uniqueName` always returns a name not yet assigned in the table. -/
theorem uniqueName_fresh (t : GeoTable) (attempt : String) :
    uniqueName t attempt ∉ tableNames t := by
  apply uniqueNameGo_fresh
  obtain ⟨j, hj, h⟩ := exists_fresh_index (tableNames t) attempt
  refine ⟨j, ?_, by simpa using h⟩
  have hlen : (tableNames t).length = t.length := by simp [tableNames]
  omega

theorem tableNames_map_update (t : GeoTable) (key : String) (g : DupRec → DupRec)
    (hg : ∀ v, (g v).name = v.name) :
    tableNames (t.map (fun e => if e.1 = key then (e.1, g e.2) else e)) =
      tableNames t := by
  unfold tableNames
  rw [List.map_map]
  apply List.map_congr_left
  intro e _
  by_cases he : e.1 = key <;> simp [he, hg]

theorem geoStep_names_nodup (t : GeoTable) (n : Node) (h : (tableNames t).Nodup) :
    (tableNames (geoStep t n)).Nodup := by
  unfold geoStep
  by_cases hm : n.isMesh
  · simp only [hm, if_true]
    cases hg : n.geometry with
    | none => exact h
    | some g =>
        dsimp only
        cases hl : (t.lookup (geometryKey g n.material)) with
        | some r =>
            dsimp only
            rw [tableNames_map_update t (geometryKey g n.material)
              (fun v => { v with count := v.count + 1 }) (fun v => rfl)]
            exact h
        | none =>
            dsimp only
            have hnames : tableNames (t ++ [(geometryKey g n.material,
                { count := 1, name := uniqueName t (baseNameOf n),
                  node := "nodes" ++ sanitizeName n.name })]) =
                tableNames t ++ [uniqueName t (baseNameOf n)] := by
              simp [tableNames]
            rw [hnames, List.nodup_append]
            refine ⟨h, by simp, ?_⟩
            intro a ha hb
            simp only [List.mem_singleton] at hb
            subst hb
            exact uniqueName_fresh t (baseNameOf n) ha
  · simpa [hm] using h

theorem buildGeometries_aux_nodup (ns : List Node) :
    ∀ t : GeoTable, (tableNames t).Nodup → (tableNames (ns.foldl geoStep t)).Nodup := by
  induction ns with
  | nil => intro t h; exact h
  | cons n ns ih => intro t h; exact ih _ (geoStep_names_nodup t n h)

/-- Claim C4: for every input node list, the display names assigned to the
entries of the duplicate-geometry table are pairwise distinct — both in the
freshly built table and after the singleton-pruning pass, under either
instancing mode. -/
theorem c4_name_uniqueness (ns : List Node) (instanceall : Bool) :
    (tableNames (buildGeometries ns)).Nodup ∧
      (tableNames (pruneSingletons instanceall (buildGeometries ns))).Nodup := by
  have h1 : (tableNames (buildGeometries ns)).Nodup :=
    buildGeometries_aux_nodup ns [] (by simp [tableNames])
  refine ⟨h1, ?_⟩
  unfold pruneSingletons
  split
  · exact h1
  · exact h1.sublist ((List.filter_sublist _).map _)

end GltfVue
open GltfVue

theorem lookup_map_update (t : GeoTable) (key k : String) (g : DupRec → DupRec) :
    (t.map (fun e => if e.1 = key then (e.1, g e.2) else e)).lookup k =
      (t.lookup k).map (fun v => if k = key then g v else v) := by
  induction t with
  | nil => rfl
  | cons e t ih =>
      obtain ⟨a, v⟩ := e
      simp only [List.map]
      by_cases hk : k = a
      · subst hk
        by_cases he : k = key
        · rw [if_pos he]
          simp [List.lookup, he]
        · rw [if_neg he]
          simp [List.lookup, he]
      · have hbeq : (k == a) = false := beq_eq_false_iff_ne.mpr hk
        by_cases he : a = key
        · rw [if_pos he]
          simp [List.lookup, hbeq, ih]
        · rw [if_neg he]
          simp [List.lookup, hbeq, ih]

theorem lookup_append_single (t : GeoTable) (x : String × DupRec) (k : String) :
    (t ++ [x]).lookup k =
      (match t.lookup k with
       | some v => some v
       | none => if k = x.1 then some x.2 else none) := by
  induction t with
  | nil =>
      by_cases hk : k = x.1
      · have hbeq : (k == x.1) = true := beq_iff_eq.mpr hk
        simp [List.lookup, hbeq, hk]
      · have hbeq : (k == x.1) = false := beq_eq_false_iff_ne.mpr hk
        simp [List.lookup, hbeq, hk]
  | cons e t ih =>
      obtain ⟨a, v⟩ := e
      by_cases hk : k = a
      · have hbeq : (k == a) = true := beq_iff_eq.mpr hk
        simp [List.lookup, hbeq]
      · have hbeq : (k == a) = false := beq_eq_false_iff_ne.mpr hk
        simp [List.lookup, hbeq, ih]

theorem lookup_eq_none_iff (t : GeoTable) (k : String) :
    t.lookup k = none ↔ k ∉ t.map Prod.fst := by
  induction t with
  | nil => simp [List.lookup]
  | cons e t ih =>
      obtain ⟨a, v⟩ := e
      by_cases hk : k = a
      · have hbeq : (k == a) = true := beq_iff_eq.mpr hk
        simp [List.lookup, hbeq, hk]
      · have hbeq : (k == a) = false := beq_eq_false_iff_ne.mpr hk
        simp only [List.lookup, hbeq, List.map]
        rw [ih]
        simp [hk]

def keyOf (n : Node) : Option String :=
  if n.isMesh then n.geometry.map (fun g => geometryKey g n.material) else none

def codeKeyCount (ns : List Node) (k : String) : Nat :=
  ns.countP (fun n => keyOf n == some k)

theorem geoStep_keys_nodup (t : GeoTable) (n : Node)
    (h : (t.map Prod.fst).Nodup) : ((geoStep t n).map Prod.fst).Nodup := by
  unfold geoStep
  by_cases hm : n.isMesh
  · simp only [hm, if_true]
    cases hg : n.geometry with
    | none => exact h
    | some g =>
        dsimp only
        cases hl : (t.lookup (geometryKey g n.material)) with
        | some r =>
            dsimp only
            have hkeys : (t.map (fun e =>
                if e.1 = geometryKey g n.material
                then (e.1, { e.2 with count := e.2.count + 1 }) else e)).map Prod.fst =
                t.map Prod.fst := by
              rw [List.map_map]
              apply List.map_congr_left
              intro e _
              by_cases he : e.1 = geometryKey g n.material <;> simp [he]
            rw [hkeys]
            exact h
        | none =>
            dsimp only
            rw [List.map_append]
            rw [List.nodup_append]
            refine ⟨h, by simp, ?_⟩
            intro a ha hb
            simp only [List.map_cons, List.map_nil, List.mem_singleton] at hb
            subst hb
            exact (lookup_eq_none_iff t _).mp hl ha
  · simpa [hm] using h

theorem buildGeometries_keys_nodup (ns : List Node) :
    ((buildGeometries ns).map Prod.fst).Nodup := by
  have haux : ∀ t : GeoTable, (t.map Prod.fst).Nodup →
      (((ns.foldl geoStep t)).map Prod.fst).Nodup := by
    induction ns with
    | nil => intro t h; exact h
    | cons n ns ih => intro t h; exact ih _ (geoStep_keys_nodup t n h)
  exact haux [] (by simp)

theorem codeKeyCount_cons (n : Node) (ns : List Node) (k : String) :
    codeKeyCount (n :: ns) k =
      (if keyOf n == some k then 1 else 0) + codeKeyCount ns k := by
  simp only [codeKeyCount, List.countP_cons]
  by_cases h : keyOf n == some k <;> simp [h] <;> omega

theorem geoStep_lookup_hit (t : GeoTable) (n : Node) (k : String)
    (hkey : keyOf n = some k) :
    (match t.lookup k with
     | some r => (geoStep t n).lookup k = some { r with count := r.count + 1 }
     | none => ∃ nm nd, (geoStep t n).lookup k = some ⟨1, nm, nd⟩) := by
  unfold keyOf at hkey
  by_cases hm : n.isMesh
  · simp only [hm, if_true] at hkey
    cases hg : n.geometry with
    | none =>
        rw [hg] at hkey
        exact absurd hkey (by simp)
    | some g =>
        rw [hg] at hkey
        have hkey2 : geometryKey g n.material = k := by simpa using hkey
        unfold geoStep
        simp only [hm, if_true, hg]
        rw [hkey2]
        cases hl : t.lookup k with
        | some r =>
            dsimp only
            rw [lookup_map_update t k k (fun v => { v with count := v.count + 1 })]
            rw [hl]
            simp
        | none =>
            dsimp only
            refine ⟨uniqueName t (baseNameOf n), "nodes" ++ sanitizeName n.name, ?_⟩
            rw [lookup_append_single, hl]
            simp
  · simp [hm] at hkey

theorem geoStep_lookup_miss (t : GeoTable) (n : Node) (k : String)
    (hkey : keyOf n ≠ some k) :
    (geoStep t n).lookup k = t.lookup k := by
  unfold geoStep
  by_cases hm : n.isMesh
  · simp only [hm, if_true]
    cases hg : n.geometry with
    | none => rfl
    | some g =>
        dsimp only
        have hke : geometryKey g n.material ≠ k := by
          intro hh
          apply hkey
          simp [keyOf, hm, hg, hh]
        cases hl : t.lookup (geometryKey g n.material) with
        | some r =>
            dsimp only
            rw [lookup_map_update t (geometryKey g n.material) k
              (fun v => { v with count := v.count + 1 })]
            simp only [if_neg (show ¬ k = geometryKey g n.material from fun hh => hke hh.symm)]
            simp
        | none =>
            dsimp only
            rw [lookup_append_single]
            cases hlk : t.lookup k with
            | some r => rfl
            | none =>
                dsimp only
                rw [if_neg (show ¬ k = geometryKey g n.material from fun hh => hke hh.symm)]
  · simp [hm]

theorem geoFold_count (ns : List Node) : ∀ (t : GeoTable) (k : String),
    (∀ r, t.lookup k = some r →
        ∃ r', (ns.foldl geoStep t).lookup k = some r' ∧
          r'.count = r.count + codeKeyCount ns k) ∧
    (t.lookup k = none →
        ((ns.foldl geoStep t).lookup k = none ∧ codeKeyCount ns k = 0) ∨
        (∃ r', (ns.foldl geoStep t).lookup k = some r' ∧
          r'.count = codeKeyCount ns k ∧ 1 ≤ codeKeyCount ns k)) := by
  induction ns with
  | nil =>
      intro t k
      constructor
      · intro r hr
        exact ⟨r, hr, by simp [codeKeyCount]⟩
      · intro h
        exact Or.inl ⟨h, by simp [codeKeyCount]⟩
  | cons n ns ih =>
      intro t k
      rw [List.foldl_cons]
      by_cases hkey : keyOf n = some k
      · have hstep := geoStep_lookup_hit t n k hkey
        have hcnt : codeKeyCount (n :: ns) k = 1 + codeKeyCount ns k := by
          rw [codeKeyCount_cons]
          simp [hkey]
        constructor
        · intro r hr
          rw [hr] at hstep
          obtain ⟨r', hr', hc'⟩ := (ih (geoStep t n) k).1 _ hstep
          exact ⟨r', hr', by simp at hc'; omega⟩
        · intro h
          rw [h] at hstep
          obtain ⟨nm, nd, hsome⟩ := hstep
          obtain ⟨r', hr', hc'⟩ := (ih (geoStep t n) k).1 _ hsome
          refine Or.inr ⟨r', hr', by simp at hc'; omega, by omega⟩
      · have hstep := geoStep_lookup_miss t n k hkey
        have hcnt : codeKeyCount (n :: ns) k = codeKeyCount ns k := by
          rw [codeKeyCount_cons]
          simp [hkey]
        constructor
        · intro r hr
          obtain ⟨r', hr', hc'⟩ := (ih (geoStep t n) k).1 r (by rw [hstep]; exact hr)
          exact ⟨r', hr', by omega⟩
        · intro h
          rcases (ih (geoStep t n) k).2 (by rw [hstep]; exact h) with ⟨h1, h2⟩ | ⟨r', hr', hc', hge⟩
          · exact Or.inl ⟨h1, by omega⟩
          · exact Or.inr ⟨r', hr', by omega, by omega⟩

theorem buildGeometries_count (ns : List Node) (k : String) :
    ((buildGeometries ns).lookup k = none ∧ codeKeyCount ns k = 0) ∨
    (∃ r, (buildGeometries ns).lookup k = some r ∧
      r.count = codeKeyCount ns k ∧ 1 ≤ codeKeyCount ns k) :=
  (geoFold_count ns [] k).2 rfl

theorem lookup_filter_ne_one (t : GeoTable) (k : String) :
    ∀ (hk : (t.map Prod.fst).Nodup),
    (t.filter (fun e => e.2.count ≠ 1)).lookup k =
      (match t.lookup k with
       | some r => if r.count = 1 then none else some r
       | none => none) := by
  induction t with
  | nil => intro; rfl
  | cons e t ih =>
      rintro hk
      obtain ⟨a, v⟩ := e
      rw [List.map_cons, List.nodup_cons] at hk
      obtain ⟨hna, hnd⟩ := hk
      by_cases hc : v.count = 1
      · have hfil : ((a, v) :: t).filter (fun e => e.2.count ≠ 1) =
            t.filter (fun e => e.2.count ≠ 1) := by
          simp [List.filter, hc]
        rw [hfil]
        by_cases hka : k = a
        · subst hka
          have hbeq : (k == k) = true := by simp
          have hnone : (t.filter (fun e => e.2.count ≠ 1)).lookup k = none := by
            rw [lookup_eq_none_iff]
            intro hmem
            apply hna
            have hsub : (t.filter (fun e => e.2.count ≠ 1)).map Prod.fst ⊆
                t.map Prod.fst :=
              List.map_subset _ (List.Sublist.subset (List.filter_sublist _))
            exact hsub hmem
          rw [hnone]
          simp [List.lookup, hc]
        · have hbeq : (k == a) = false := beq_eq_false_iff_ne.mpr hka
          simp only [List.lookup, hbeq]
          exact ih hnd
      · have hfil : ((a, v) :: t).filter (fun e => e.2.count ≠ 1) =
            (a, v) :: t.filter (fun e => e.2.count ≠ 1) := by
          simp [List.filter, hc]
        rw [hfil]
        by_cases hka : k = a
        · have hbeq : (k == a) = true := beq_iff_eq.mpr hka
          simp [List.lookup, hbeq, hc]
        · have hbeq : (k == a) = false := beq_eq_false_iff_ne.mpr hka
          simp only [List.lookup, hbeq]
          exact ih hnd

theorem prunedLookup (ns : List Node) (k : String) :
    ((pruneSingletons false (buildGeometries ns)).lookup k = none ∧
      codeKeyCount ns k ≤ 1) ∨
    (∃ r, (pruneSingletons false (buildGeometries ns)).lookup k = some r ∧
      r.count = codeKeyCount ns k ∧ 2 ≤ codeKeyCount ns k) := by
  unfold pruneSingletons
  simp only [Bool.false_eq_true, if_false]
  rw [lookup_filter_ne_one _ _ (buildGeometries_keys_nodup ns)]
  rcases buildGeometries_count ns k with ⟨hn, hc⟩ | ⟨r, hr, hc, hge⟩
  · rw [hn]
    exact Or.inl ⟨rfl, by omega⟩
  · rw [hr]
    dsimp only
    by_cases h1 : r.count = 1
    · rw [if_pos h1]
      exact Or.inl ⟨rfl, by omega⟩
    · rw [if_neg h1]
      exact Or.inr ⟨r, rfl, hc, by omega⟩

example (a b c : String) : (a ++ b) ++ c = a ++ (b ++ c) := by rw [String.append_assoc]
example : ("<" ++ "TresMesh") ++ " " = "<TresMesh " := by decide

theorem c5_print_shape (e : Env) (fuel : Nat) (s : Store) (i : Nat) (silent : Bool)
    (g : Geometry) (m : Material)
    (hInst : e.opts.instanceOpt = true) (hAll : e.opts.instanceall = false)
    (ht : (s.get i).type = "Mesh") (hr : (s.get i).removed = false)
    (him : (s.get i).isInstancedMesh = false) (hch : (s.get i).children = [])
    (hg : (s.get i).geometry = some g) (hm : (s.get i).material = some m) :
    (∀ r, e.geoTbl.lookup (g.uuid ++ m.name) = some r → 1 < r.count →
      ∃ rest, (printF e (fuel + 1) s i silent).1 =
        "<instances." ++ (r.name ++ (" " ++ rest))) ∧
    (e.geoTbl.lookup (g.uuid ++ m.name) = none →
      ∃ rest, (printF e (fuel + 1) s i silent).1 = "<TresMesh " ++ rest) := by
  have htype : getType (s.get i) = "mesh" := by
    unfold getType
    rw [ht]
    decide
  have hb1 : (("mesh" : String) == "bone") = false := by decide
  have hb2 : strEndsWith "mesh" "Light" = false := by decide
  have hlen0 : ((("" : String)).length != 0) = false := by decide
  have hprune : ∀ (s2 : Store) (children result oldResult : String),
      (s2.get i).type = "Mesh" →
      pruneCore (fun st j sil => printF e fuel st j sil) e s2 i children result oldResult =
        (none, s2) := by
    intro s2 children result oldResult ht2
    have htype2 : getType (s2.get i) = "mesh" := by
      unfold getType
      rw [ht2]
      decide
    simp only [pruneCore, htype2]
    simp
  constructor
  · intro r hlk hcount
    have hinst : isInstanced e (s.get i) = true := by
      unfold isInstanced
      rw [hInst, hg, hm]
      dsimp only
      rw [hlk, hAll]
      simp [hcount]
    simp only [printF, hr, htype, hinst, hg, hm, hlk, him, hch, hb1, hb2]
    simp only [Bool.false_and, Bool.and_false, Bool.false_eq_true, if_false,
      List.foldl_nil, if_true, Bool.false_or]
    rw [hprune s "" _ _ ht]
    simp only [hlen0, Bool.false_eq_true, if_false]
    by_cases hname : ((s.get i).name.length != 0 &&
        (e.opts.keepnames || (s.get i).morphTargetDictionary || e.hasAnims)) = true
    · simp only [hname, if_true]
      refine ⟨"name=\"" ++ ((s.get i).name ++ ("\" " ++ (handleProps e s i ++ ("/>" ++ "\n")))), ?_⟩
      repeat rw [String.append_assoc]
    · simp only [Bool.not_eq_true] at hname
      simp only [hname, Bool.false_eq_true, if_false]
      refine ⟨handleProps e s i ++ ("/>" ++ "\n"), ?_⟩
      repeat rw [String.append_assoc]
  · intro hlk
    have hinst : isInstanced e (s.get i) = false := by
      unfold isInstanced
      rw [hg, hm]
      dsimp only
      rw [hlk]
      simp
    have htres : (("<" ++ getTresType "mesh") ++ " " : String) = "<TresMesh " := by decide
    simp only [printF, hr, htype, hinst, hg, hm, hlk, him, hch, hb1, hb2]
    simp only [Bool.false_and, Bool.and_false, Bool.false_eq_true, if_false,
      List.foldl_nil, if_true, Bool.false_or]
    rw [hprune s "" _ _ ht]
    simp only [hlen0, Bool.false_eq_true, if_false]
    rw [htres]
    by_cases hname : ((s.get i).name.length != 0 &&
        (e.opts.keepnames || (s.get i).morphTargetDictionary || e.hasAnims)) = true
    · simp only [hname, if_true]
      refine ⟨"name=\"" ++ ((s.get i).name ++ ("\" " ++ (handleProps e s i ++ ("/>" ++ "\n")))), ?_⟩
      repeat rw [String.append_assoc]
    · simp only [Bool.not_eq_true] at hname
      simp only [hname, Bool.false_eq_true, if_false]
      refine ⟨handleProps e s i ++ ("/>" ++ "\n"), ?_⟩
      repeat rw [String.append_assoc]

/-- Claim C5 scenario (counterexample): two materialless meshes sharing the
geometry with uuid `g1`; sparse instancing configuration. -/
def c5xMesh : Node :=
  { type := "Mesh", name := "A", isMesh := true, geometry := some ⟨"g1"⟩ }

def c5xNodes : List Node := [c5xMesh, c5xMesh]

def c5xOpts : Options := { instanceOpt := true }

def c5xEnv : Env :=
  { opts := c5xOpts, geoTbl := pruneSingletons c5xOpts.instanceall (buildGeometries c5xNodes),
    hasAnims := false }

def c5xStore : Store := ⟨[c5xMesh]⟩

/-- Claim C5 (counterexample): the claim asserts that under sparse instancing
mode every mesh whose (geometry identity, material name) signature occurs two
or more times is emitted as an instanced reference.  Here the spec signature
(`g1`, "") occurs twice, yet the mesh compiles to a plain `<TresMesh ...`
element with no `<instances.` reference anywhere: the code computes the key
`uuid + material?.name ?? ''` (which is `"g1undefined"` for a materialless
mesh) but the instancing test in `getInfo` additionally requires
`node.material` to be set, so materialless duplicates are never instanced. -/
theorem c5_materialless_counterexample :
    specSigCount c5xNodes ("g1", "") = 2 ∧
    c5xOpts.instanceOpt = true ∧ c5xOpts.instanceall = false ∧
    substrMem (printF c5xEnv 2 c5xStore 0 false).1 "<instances." = false ∧
    strStartsWith (printF c5xEnv 2 c5xStore 0 false).1 "<TresMesh " = true := by
  decide

/-- Claim C5 (amended): under sparse instancing mode (`instance` on,
`instanceall` off), for a leaf mesh carrying both a geometry and a material,
the printed element is governed by how many meshes-with-geometry in the graph
share the code's concatenated key `geometry.uuid ++ material.name`: with two
or more carriers the mesh is emitted as `<instances.NAME ...` where `NAME` is
the single shared DuplicateRecord's assigned name and the record's count is
exactly the carrier count; with at most one carrier (in particular a unique
signature) the record is pruned and the mesh is emitted as a plain
`<TresMesh ...` element. -/
theorem c5_instancing_threshold (o : Options) (anims : Bool) (ns : List Node)
    (fuel : Nat) (s : Store) (i : Nat) (silent : Bool) (g : Geometry) (m : Material)
    (hInst : o.instanceOpt = true) (hAll : o.instanceall = false)
    (ht : (s.get i).type = "Mesh") (hr : (s.get i).removed = false)
    (him : (s.get i).isInstancedMesh = false) (hch : (s.get i).children = [])
    (hg : (s.get i).geometry = some g) (hm : (s.get i).material = some m) :
    (2 ≤ codeKeyCount ns (g.uuid ++ m.name) →
      ∃ r rest,
        (pruneSingletons o.instanceall (buildGeometries ns)).lookup (g.uuid ++ m.name) = some r ∧
        r.count = codeKeyCount ns (g.uuid ++ m.name) ∧
        (printF { opts := o, geoTbl := pruneSingletons o.instanceall (buildGeometries ns), hasAnims := anims } (fuel + 1) s i silent).1 =
          "<instances." ++ (r.name ++ (" " ++ rest))) ∧
    (codeKeyCount ns (g.uuid ++ m.name) ≤ 1 →
      ∃ rest,
        (printF { opts := o, geoTbl := pruneSingletons o.instanceall (buildGeometries ns), hasAnims := anims } (fuel + 1) s i silent).1 =
          "<TresMesh " ++ rest) := by
  rw [hAll]
  have hmain := c5_print_shape
    { opts := o, geoTbl := pruneSingletons false (buildGeometries ns), hasAnims := anims }
    fuel s i silent g m hInst hAll ht hr him hch hg hm
  rcases prunedLookup ns (g.uuid ++ m.name) with ⟨hn, hle⟩ | ⟨r, hlk, hc, hge⟩
  · exact ⟨fun h2 => absurd h2 (by omega), fun _ => hmain.2 hn⟩
  · refine ⟨fun h2 => ?_, fun h1 => absurd h1 (by omega)⟩
    obtain ⟨rest, hout⟩ := hmain.1 r hlk (by omega)
    exact ⟨r, rest, hlk, hc, hout⟩

/-- Claim C5 scenario (witness): two meshes sharing geometry `g5` and the
material named `mat`; sparse instancing configuration. -/
def c5wMesh : Node :=
  { type := "Mesh", name := "B", isMesh := true, geometry := some ⟨"g5"⟩,
    material := some { name := "mat" } }

def c5wNodes : List Node := [c5wMesh, c5wMesh]

def c5wOpts : Options := { instanceOpt := true }

def c5wStore : Store := ⟨[c5wMesh]⟩

theorem c5_instancing_threshold_witness :
    (2 ≤ codeKeyCount c5wNodes ("g5" ++ "mat") →
      ∃ r rest,
        (pruneSingletons c5wOpts.instanceall (buildGeometries c5wNodes)).lookup ("g5" ++ "mat") = some r ∧
        r.count = codeKeyCount c5wNodes ("g5" ++ "mat") ∧
        (printF { opts := c5wOpts, geoTbl := pruneSingletons c5wOpts.instanceall (buildGeometries c5wNodes), hasAnims := false } (0 + 1) c5wStore 0 false).1 =
          "<instances." ++ (r.name ++ (" " ++ rest))) ∧
    (codeKeyCount c5wNodes ("g5" ++ "mat") ≤ 1 →
      ∃ rest,
        (printF { opts := c5wOpts, geoTbl := pruneSingletons c5wOpts.instanceall (buildGeometries c5wNodes), hasAnims := false } (0 + 1) c5wStore 0 false).1 =
          "<TresMesh " ++ rest) :=
  c5_instancing_threshold c5wOpts false c5wNodes 0 c5wStore 0 false ⟨"g5"⟩ { name := "mat" }
    (by decide) (by decide) (by decide) (by decide) (by decide) (by decide) (by decide) (by decide)
